import Mathlib

/-!
Shallow embedding of the type model of the TON-Solidity compiler
(`compiler/libsolidity/ast/Types.cpp`), covering the fragment of the type
taxonomy exercised by the verified properties: Integer, FixedPoint,
RationalNumber, FixedBytes, Bool, Address, Array, Optional, Mapping, Null and
EmptyMap.  Rational-literal values are represented by Lean's `ℚ` (which, like
`boost::rational`, keeps values normalized with a positive denominator).
Machine integers of the source (`unsigned`, `bigint`, `u256`) are represented
by `ℕ`/`ℤ` with explicit `2 ^ 256` bounds where the source checks them.

`BoolResult` (a boolean that may carry an explanatory reason on failure) and
`TypeResult` (a type, a null pointer, or an error message) are represented by
explicit result values; the source never throws for these outcomes.
-/

/-- `util::Result<bool>` (`BoolResult`): a yes/no decision with an optional
human-readable reason carried on "no". -/
structure BRes where
  val : Bool
  reason : Option String
deriving DecidableEq, Repr

/-- Successful `BoolResult` (`return true;`). -/
def BRes.yes : BRes := ⟨true, none⟩

/-- Failing `BoolResult` without a reason (`return false;`). -/
def BRes.no : BRes := ⟨false, none⟩

/-- Failing `BoolResult` with a reason (`BoolResult::err(msg)`). -/
def BRes.mkErr (m : String) : BRes := ⟨false, some m⟩

/-- A `BoolResult` built from a plain C++ `bool`. -/
def BRes.ofBool (b : Bool) : BRes := ⟨b, none⟩

/-- The array kind tag of `ArrayType` (`ArrayKind`): an ordinary array,
`bytes`, or `string`. -/
inductive ArrKind where
  | ordinary
  | bytesKind
  | stringKind
deriving DecidableEq, Repr

/-- The modelled fragment of the `Type` taxonomy.  Each constructor carries
the category-specific data of the corresponding C++ class:
`IntegerType` (bits, signedness), `FixedPointType` (total bits, fractional
digits, signedness), `RationalNumberType` (exact value and the optional
`m_compatibleBytesType` a hex literal may carry — in the source it is a
nullable `Type const*` that the provider only ever fills with a
`FixedBytesType`, so it is modelled by the byte count of that type),
`FixedBytesType` (byte
count), `BoolType`, `AddressType`, `ArrayType` (kind, base type, dynamic-size
flag, fixed length, and the `ReferenceType` pointer flag), `OptionalType`,
`MappingType`, `NullType` and `EmptyMapType`. -/
inductive Ty where
  | integer (bits : ℕ) (signed : Bool)
  | fixedPoint (bits : ℕ) (fractionalDigits : ℕ) (signed : Bool)
  | rationalNumber (value : ℚ) (compatibleBytesType : Option ℕ)
  | fixedBytes (bytes : ℕ)
  | boolean
  | address
  | array (kind : ArrKind) (base : Ty) (dynamicallySized : Bool) (len : ℕ) (ptr : Bool)
  | optional (valueType : Ty)
  | mapping (keyType : Ty) (valueType : Ty)
  | nullType
  | emptyMap
deriving DecidableEq, Repr

/-- `ArrayType::isByteArray()`: the kind is `bytes`. -/
def isByteArrayK : ArrKind → Bool
  | .bytesKind => true
  | _ => false

/-- `ArrayType::isString()`: the kind is `string`. -/
def isStringK : ArrKind → Bool
  | .stringKind => true
  | _ => false

/-- `ArrayType::isByteArrayOrString()`: the kind is not ordinary. -/
def isByteArrayOrStringK : ArrKind → Bool
  | .ordinary => false
  | _ => true

/-- Structural equality, `Type::operator==` and its per-category overrides:
same category is required; Integer compares bits and signedness; FixedPoint
bits, fractional digits, signedness; RationalNumber compares only `m_value`
(not the compatible-bytes annotation); FixedBytes the byte count; Array
follows `ArrayType::operator==` (pointer flag, byte-array flag, string flag,
dynamic-size flag, base type, and length unless dynamically sized); Optional
and Mapping compare component types; Bool, Address, Null and EmptyMap compare
by category alone. -/
def tyEq : Ty → Ty → Bool
  | .integer b s, .integer b' s' => b == b' && s == s'
  | .fixedPoint b f s, .fixedPoint b' f' s' => b == b' && f == f' && s == s'
  | .rationalNumber v _, .rationalNumber v' _ => decide (v = v')
  | .fixedBytes n, .fixedBytes n' => n == n'
  | .boolean, .boolean => true
  | .address, .address => true
  | .array k b d l p, .array k' b' d' l' p' =>
      p == p' && isByteArrayK k == isByteArrayK k' && isStringK k == isStringK k' &&
      d == d' && tyEq b b' && (d || l == l')
  | .optional v, .optional v' => tyEq v v'
  | .mapping k v, .mapping k' v' => tyEq k k' && tyEq v v'
  | .nullType, .nullType => true
  | .emptyMap, .emptyMap => true
  | _, _ => false

/-- `IntegerType::minValue()`: `-(2^(bits-1))` when signed, else `0`. -/
def intMinValue (bits : ℕ) (signed : Bool) : ℤ :=
  if signed then -((2 ^ (bits - 1) : ℕ) : ℤ) else 0

/-- `IntegerType::maxValue()`: `2^(bits-1) - 1` when signed, else `2^bits - 1`. -/
def intMaxValue (bits : ℕ) (signed : Bool) : ℤ :=
  if signed then ((2 ^ (bits - 1) : ℕ) : ℤ) - 1 else ((2 ^ bits : ℕ) : ℤ) - 1

/-- `IntegerType::toString`: `int<bits>` or `uint<bits>`. -/
def intTypeToString (bits : ℕ) (signed : Bool) : String :=
  (if signed then "int" else "uint") ++ Nat.repr bits

/-- `FixedPointType::maxIntegerValue()`: `((1 << (bits - (signed ? 1 : 0))) - 1)
/ 10^fractionalDigits` (bigint division truncates; all quantities are
non-negative here). -/
def fpMaxIntegerValue (bits fd : ℕ) (signed : Bool) : ℤ :=
  (((2 ^ (bits - (if signed then 1 else 0)) - 1) / 10 ^ fd : ℕ) : ℤ)

/-- `FixedPointType::minIntegerValue()`: for signed, `-(1 << (bits-1)) /
10^fractionalDigits` with C++ truncation toward zero (equal to the negated
natural-number quotient of the magnitudes); `0` for unsigned. -/
def fpMinIntegerValue (bits fd : ℕ) (signed : Bool) : ℤ :=
  if signed then -(((2 ^ (bits - 1) / 10 ^ fd : ℕ) : ℤ)) else 0

/-- Helper for `numberEncodingSize`: number of binary digits of `n` added to
the accumulator, computed with an explicit fuel argument (the recursion
halves `n`, so any fuel above the bit length is enough). -/
def numberBitsAux : ℕ → ℕ → ℕ → ℕ
  | 0, _, acc => acc
  | fuel + 1, n, acc => if n = 0 then acc else numberBitsAux fuel (n / 2) (acc + 1)

/-- Number of binary digits of `n` (`0` for `n = 0`). -/
def numberBits (n : ℕ) : ℕ := numberBitsAux (n + 1) n 0

/-- Modelled from the spec: `util::numberEncodingSize` (libsolutil, not under
src/) — the number of bytes needed to represent a non-negative big integer,
i.e. the byte length used to derive the "smallest integer type" of §4.2. -/
def numberEncodingSize (n : ℕ) : ℕ := (numberBits n + 7) / 8

/-- `boost::multiprecision::msb`: zero-based index of the most significant
set bit of a positive integer. -/
def msbN (n : ℕ) : ℕ := numberBits n - 1

/-- `RationalNumberType::isFractional()`: the normalized denominator is
not 1. -/
def isFractional (q : ℚ) : Bool := q.den != 1

/-- Multiplication of exact rationals by the `boost::rational` formula
`(a.num * b.num) / (a.den * b.den)` followed by normalization (`mkRat`
normalizes exactly as `boost::rational` does). -/
def qmul (a b : ℚ) : ℚ := mkRat (a.num * b.num) (a.den * b.den)

/-- Addition of exact rationals, cross-multiplied then normalized. -/
def qadd (a b : ℚ) : ℚ := mkRat (a.num * (b.den : ℤ) + b.num * (a.den : ℤ)) (a.den * b.den)

/-- Subtraction of exact rationals, cross-multiplied then normalized. -/
def qsub (a b : ℚ) : ℚ := mkRat (a.num * (b.den : ℤ) - b.num * (a.den : ℤ)) (a.den * b.den)

/-- Division of exact rationals (the divisor must be nonzero; callers check). -/
def qdiv (a b : ℚ) : ℚ := mkRat (a.num * (b.den : ℤ) * b.num.sign) (a.den * b.num.natAbs)

/-- The rational constant `10` used when scaling by powers of ten. -/
def qTen : ℚ := mkRat 10 1

/-- Embedding of `fitsIntegerType` (anonymous namespace of Types.cpp):
whether the big integer `v` fits the integer type `(bits, signed)`, with the
source's error messages. -/
def fitsIntegerType (v : ℤ) (bits : ℕ) (signed : Bool) : BRes :=
  if v < 0 ∧ signed = false then
    BRes.mkErr ("Cannot implicitly convert signed literal to unsigned type.")
  else if intMinValue bits signed > v ∨ v > intMaxValue bits signed then
    BRes.mkErr ("Literal is too large to fit in " ++ intTypeToString bits signed ++ ".")
  else BRes.yes

/-- Embedding of `fitsIntoBits`: `fitsIntegerType` against the integer type
of the given width and signedness, reduced to its boolean value. -/
def fitsIntoBits (v : ℤ) (bits : ℕ) (signed : Bool) : Bool :=
  (fitsIntegerType v bits signed).val

/-- The base-type unwrapping loop of `ArrayType::isImplicitlyConvertibleTo`:
while both sides are arrays, replace each by its base type. -/
def unwrapArrayPair : Ty → Ty → Ty × Ty
  | .array _ b0 _ _ _, .array _ b1 _ _ _ => unwrapArrayPair b0 b1
  | t0, t1 => (t0, t1)

/-- Embedding of the virtual `isImplicitlyConvertibleTo` dispatch of
Types.cpp over the modelled fragment.  Every override begins with the base
rule `Type::isImplicitlyConvertibleTo` (lines 141–149): identity via
`operator==`, or success on an Optional target whose wrapped type this type
converts to.  The per-category rules follow the respective overrides;
`VarInteger`, `Contract`, `Struct`, `Function` and the other categories
outside the fragment are omitted together with the branches that mention
them. -/
def isImplicitlyConvertibleTo : Ty → Ty → BRes
  -- IntegerType::isImplicitlyConvertibleTo (lines 588–629)
  | .integer b s, .integer b' s' =>
      if tyEq (.integer b s) (.integer b' s') then .yes
      else if s != s' then .no
      else if b' < b then .no
      else .yes
  | .integer b s, .fixedPoint b' f' s' =>
      .ofBool (decide (intMaxValue b s ≤ fpMaxIntegerValue b' f' s' ∧
        intMinValue b s ≥ fpMinIntegerValue b' f' s'))
  | .integer b s, .optional v =>
      if (isImplicitlyConvertibleTo (.integer b s) v).val then .yes else .no
  | .integer _ _, _ => .no
  -- FixedPointType::isImplicitlyConvertibleTo (lines 767–784)
  | .fixedPoint b f s, .fixedPoint b' f' s' =>
      if tyEq (.fixedPoint b f s) (.fixedPoint b' f' s') then .yes
      else if f' < f then .mkErr ("Too many fractional digits.")
      else if b' < b then .no
      else .ofBool (decide (fpMaxIntegerValue b' f' s' ≥ fpMaxIntegerValue b f s ∧
        fpMinIntegerValue b' f' s' ≤ fpMinIntegerValue b f s))
  | .fixedPoint b f s, .optional v =>
      if (isImplicitlyConvertibleTo (.fixedPoint b f s) v).val then .yes else .no
  | .fixedPoint _ _ _, _ => .no
  -- RationalNumberType::isImplicitlyConvertibleTo (lines 1037–1078)
  | .rationalNumber q _, .integer b' s' =>
      if isFractional q then .no
      else fitsIntegerType q.num b' s'
  | .rationalNumber q _, .fixedPoint b' f' s' =>
      if decide (q < 0) && !s' then .no
      else if !isFractional q then
        .ofBool (decide ((mkRat (fpMinIntegerValue b' f' s') 1) ≤ q ∧
          q ≤ (mkRat (fpMaxIntegerValue b' f' s') 1)))
      else
        -- value = m_value * 10^fractionalDigits; exactness then bit-fit check
        (if (qmul q (mkRat ((10 ^ f' : ℕ) : ℤ) 1)).den ≠ 1 then .no
         else .ofBool (fitsIntoBits (qmul q (mkRat ((10 ^ f' : ℕ) : ℤ) 1)).num b' s'))
  | .rationalNumber q c, .fixedBytes n =>
      -- m_value == rational(0) || (m_compatibleBytesType && *m_compatibleBytesType == _convertTo)
      .ofBool (decide (q = 0) ||
        (match c with
         | some m => tyEq (.fixedBytes m) (.fixedBytes n)
         | none => false))
  | .rationalNumber q c, .rationalNumber q' c' =>
      -- only the base rule applies (Rational is not a case of the switch)
      if tyEq (.rationalNumber q c) (.rationalNumber q' c') then .yes else .no
  | .rationalNumber q c, .optional v =>
      if (isImplicitlyConvertibleTo (.rationalNumber q c) v).val then .yes else .no
  | .rationalNumber _ _, _ => .no
  -- FixedBytesType::isImplicitlyConvertibleTo (lines 1413–1423)
  | .fixedBytes n, .fixedBytes n' =>
      if tyEq (.fixedBytes n) (.fixedBytes n') then .yes
      else .ofBool (n' ≥ n)
  | .fixedBytes n, .optional v =>
      if (isImplicitlyConvertibleTo (.fixedBytes n) v).val then .yes else .no
  | .fixedBytes _, _ => .no
  -- BoolType has no override: Type::isImplicitlyConvertibleTo only
  | .boolean, .optional v =>
      if (isImplicitlyConvertibleTo .boolean v).val then .yes else .no
  | .boolean, other => .ofBool (tyEq .boolean other)
  -- AddressType::isImplicitlyConvertibleTo (lines 443–450)
  | .address, .address => .yes
  | .address, .optional v =>
      if (isImplicitlyConvertibleTo .address v).val then .yes else .no
  | .address, _ => .no
  -- ArrayType::isImplicitlyConvertibleTo (lines 1658–1678)
  | .array k b d l p, .array k' b' d' l' p' =>
      if tyEq (.array k b d l p) (.array k' b' d' l' p') then .yes
      else if isByteArrayOrStringK k && isByteArrayOrStringK k' then .yes
      else if xor (isByteArrayK k) (isByteArrayK k') then .no
      else .ofBool (tyEq (unwrapArrayPair b b').1 (unwrapArrayPair b b').2)
  | .array k b d l p, .optional v =>
      if (isImplicitlyConvertibleTo (.array k b d l p) v).val then .yes else .no
  | .array _ _ _ _ _, _ => .no
  -- OptionalType::isImplicitlyConvertibleTo (lines 3976–3989): the base rule,
  -- then this → wrapped target, then value type → wrapped target, then the
  -- final (redundant) equality re-check
  | .optional tv, .optional v =>
      if tyEq (.optional tv) (.optional v) then .yes
      else if (isImplicitlyConvertibleTo (.optional tv) v).val then .yes
      else if (isImplicitlyConvertibleTo tv v).val then .yes
      else .no
  | .optional _, _ => .no
  -- MappingType::isImplicitlyConvertibleTo (lines 3964–3974)
  | .mapping k v, .mapping k' v' =>
      if tyEq (.mapping k v) (.mapping k' v') then .yes
      else .ofBool (tyEq k k' && tyEq v v')
  | .mapping k v, .optional ov =>
      if (isImplicitlyConvertibleTo (.mapping k v) ov).val then .yes else .no
  | .mapping _ _, _ => .no
  -- NullType::isImplicitlyConvertibleTo (lines 4046–4049): Optional targets
  -- only, no base rule
  | .nullType, .optional _ => .yes
  | .nullType, _ => .no
  -- EmptyMapType::isImplicitlyConvertibleTo (lines 4067–4070): Mapping
  -- targets only, no base rule
  | .emptyMap, .mapping _ _ => .yes
  | .emptyMap, _ => .no

/-- `RationalNumberType::integerType()` (lines 1265–1279): the smallest
integer type exactly representing a non-fractional rational's numerator
(signed iff negative, the bit requirement of a negative number computed via
`((0 - value) - 1) << 1`), or `none` when the value exceeds 256 bits
(`u256(-1)`). -/
def integerType (q : ℚ) : Option Ty :=
  let value := q.num
  let negative := decide (value < 0)
  let value := if negative then ((0 - value) - 1) * 2 else value
  if value > ((2 ^ 256 - 1 : ℕ) : ℤ) then none
  else some (.integer (max (numberEncodingSize value.toNat) 1 * 8) negative)

/-- The scaling loop of `RationalNumberType::fixedPointType()`: multiply by
ten while the scaled value stays within `maxValue`, the denominator is not 1
and fewer than 80 fractional digits were used.  The fuel argument (81 at the
call site) dominates the `fractionalDigits < 80` guard, so the loop is
exactly the source's `while`. -/
def fixedPointTypeLoop (maxValue : ℚ) : ℕ → ℚ → ℕ → ℚ × ℕ
  | 0, value, fd => (value, fd)
  | fuel + 1, value, fd =>
      if qmul value qTen ≤ maxValue ∧ value.den ≠ 1 ∧ fd < 80 then
        fixedPointTypeLoop maxValue fuel (qmul value qTen) (fd + 1)
      else (value, fd)

/-- `RationalNumberType::fixedPointType()` (lines 1281–1317): scale the
absolute value up by powers of ten until exact (or bounds are exhausted),
truncate toward zero, adjust the bit requirement for negative values, and
return the smallest fixed-point type, or `none` when the value cannot fit. -/
def fixedPointType (q : ℚ) : Option Ty :=
  let negative := decide (q < 0)
  let value : ℚ := mkRat (Int.ofNat q.num.natAbs) q.den
  let maxValue : ℚ :=
    if negative then mkRat ((2 ^ 255 : ℕ) : ℤ) 1 else mkRat ((2 ^ 256 - 1 : ℕ) : ℤ) 1
  let (value, fractionalDigits) := fixedPointTypeLoop maxValue 81 value 0
  if value > maxValue then none
  else
    let v : ℕ := value.num.toNat / value.den
    let v : ℕ := if negative ∧ v ≠ 0 then (v - 1) * 2 else v
    if v > 2 ^ 256 - 1 then none
    else some (.fixedPoint (max (numberEncodingSize v) 1 * 8) fractionalDigits negative)

/-- The virtual `mobileType()` over the fragment:
`RationalNumberType::mobileType()` (lines 1257–1263) picks `integerType()`
for non-fractional values and `fixedPointType()` otherwise; every other
modelled category uses the `Type::mobileType` default (Types.h, modelled from
the spec §4.1: "identity for already-concrete types"). -/
def mobileType : Ty → Option Ty
  | .rationalNumber q _ =>
      if !isFractional q then integerType q else fixedPointType q
  | t => some t

/-- `Type::commonType` (lines 301–311): try `A`'s mobile type first (result
if `B` converts to it), then `B`'s. -/
def commonType (a b : Ty) : Option Ty :=
  match mobileType a with
  | some ma =>
      if (isImplicitlyConvertibleTo b ma).val then some ma
      else
        match mobileType b with
        | some mb => if (isImplicitlyConvertibleTo a mb).val then some mb else none
        | none => none
  | none =>
      match mobileType b with
      | some mb => if (isImplicitlyConvertibleTo a mb).val then some mb else none
      | none => none

/-- The binary-operator tokens needed by the embedded operator rules, with
the trait sets of `TokenTraits`. -/
inductive Op where
  | add | sub | mul | div | mod | exp
  | shl | sar | shr
  | lt | gt | le | ge | eqOp | neOp
  | andOp | orOp
  | bitAnd | bitOr | bitXor
deriving DecidableEq, Repr

/-- `TokenTraits::isCompareOp`. -/
def isCompareOp : Op → Bool
  | .lt | .gt | .le | .ge | .eqOp | .neOp => true
  | _ => false

/-- `TokenTraits::isBooleanOp`. -/
def isBooleanOp : Op → Bool
  | .andOp | .orOp => true
  | _ => false

/-- `TokenTraits::isBitOp`. -/
def isBitOp : Op → Bool
  | .bitAnd | .bitOr | .bitXor => true
  | _ => false

/-- `TokenTraits::isShiftOp`. -/
def isShiftOp : Op → Bool
  | .shl | .sar | .shr => true
  | _ => false

/-- `isValidShiftAndAmountType` (lines 555–566): `>>>` is disabled; an
integer amount must be unsigned; a rational amount must be a non-fractional,
non-negative literal with a representable integer type. -/
def isValidShiftAndAmountType (op : Op) (shiftAmountType : Ty) : Bool :=
  if op = .shr then false
  else
    match shiftAmountType with
    | .integer _ s => !s
    | .rationalNumber q _ =>
        !isFractional q && (integerType q).isSome && !(decide (q < 0))
    | _ => false

/-- `Result<Type const*>` (`TypeResult`): a concrete type, a null result
("operator not applicable"), or an error message. -/
inductive TRes where
  | ok (t : Ty)
  | noRes
  | err (msg : String)
deriving DecidableEq, Repr

/-- Whether `IntegerType::binaryOperatorResult` accepts the other operand's
category (line 704: RationalNumber, FixedPoint, or the same category;
VarInteger is outside the fragment). -/
def isIntCompatibleCategory : Ty → Bool
  | .integer _ _ | .fixedPoint _ _ _ | .rationalNumber _ _ => true
  | _ => false

/-- `IntegerType::binaryOperatorResult` (lines 702–750). -/
def integerBinaryOperatorResult (op : Op) (bits : ℕ) (signed : Bool) (other : Ty) : TRes :=
  if !isIntCompatibleCategory other then .noRes
  else if isShiftOp op then
    if isValidShiftAndAmountType op other then .ok (.integer bits signed) else .noRes
  else if op = .exp then
    match other with
    | .integer _ s' =>
        if s' then .err ("Exponentiation power is not allowed to be a signed integer type.")
        else .ok (.integer bits signed)
    | .fixedPoint _ _ _ => .noRes
    | .rationalNumber q _ =>
        if isFractional q then .err ("Exponent is fractional.")
        else if (integerType q).isNone then .err ("Exponent too large.")
        else if decide (q < 0) then
          .err ("Exponentiation power is not allowed to be a negative integer literal.")
        else .ok (.integer bits signed)
    | _ => .ok (.integer bits signed)
  else
    match commonType (.integer bits signed) other with
    | none => .noRes
    | some ct =>
        if isCompareOp op then .ok ct
        else if isBooleanOp op then .noRes
        else .ok ct

/-- `FixedPointType::binaryOperatorResult` (lines 842–855). -/
def fixedPointBinaryOperatorResult (op : Op) (bits fd : ℕ) (signed : Bool) (other : Ty) : TRes :=
  match commonType (.fixedPoint bits fd signed) other with
  | none => .noRes
  | some ct =>
      if isCompareOp op then .ok ct
      else if isBitOp op || isBooleanOp op || op = .exp then .noRes
      else .ok ct

/-- Dispatch of the virtual `binaryOperatorResult` for the concrete types a
rational literal's mobile or common type can be (Integer or FixedPoint). -/
def binaryOperatorResultDispatch (op : Op) (t other : Ty) : TRes :=
  match t with
  | .integer b s => integerBinaryOperatorResult op b s other
  | .fixedPoint b f s => fixedPointBinaryOperatorResult op b f s other
  | _ => .noRes

/-- Modelled from the spec: `ConstantEvaluator::evaluateBinaryOperator`
(libsolidity/analysis, not under src/) — "Binary/unary operators between two
rational literals are evaluated exactly" (§4.2).  The four exact arithmetic
operators are modelled (division by zero yields no value); the remaining
tokens are left unevaluated in this fragment. -/
def evaluateBinaryOperator (op : Op) (a b : ℚ) : Option ℚ :=
  match op with
  | .add => some (qadd a b)
  | .sub => some (qsub a b)
  | .mul => some (qmul a b)
  | .div => if b = 0 then none else some (qdiv a b)
  | _ => none

/-- `RationalNumberType::binaryOperatorResult` (lines 1107–1169). -/
def rationalBinaryOperatorResult (op : Op) (q : ℚ) (c : Option ℕ) (other : Ty) : TRes :=
  match other with
  | .integer b' s' =>
      if isFractional q then .err ("Fractional literals not supported.")
      else if (integerType q).isNone then .err ("Literal too large.")
      else if isShiftOp op then
        if !isValidShiftAndAmountType op (.integer b' s') then .noRes
        else .ok (if decide (q < 0) then .integer 256 true else .integer 256 false)
      else if op = .exp then
        if s' then .err ("Exponentiation power is not allowed to be a signed integer type.")
        else .ok (if decide (q < 0) then .integer 256 true else .integer 256 false)
      else
        (match commonType (.rationalNumber q c) (.integer b' s') with
         | none => .noRes
         | some ct => binaryOperatorResultDispatch op ct (.integer b' s'))
  | .fixedPoint b' f' s' =>
      if isFractional q then .err ("Fractional literals not supported.")
      else if (integerType q).isNone then .err ("Literal too large.")
      else if isShiftOp op then
        if !isValidShiftAndAmountType op (.fixedPoint b' f' s') then .noRes
        else .ok (if decide (q < 0) then .integer 256 true else .integer 256 false)
      else if op = .exp then
        .err ("Exponent is fractional.")
      else
        (match commonType (.rationalNumber q c) (.fixedPoint b' f' s') with
         | none => .noRes
         | some ct => binaryOperatorResultDispatch op ct (.fixedPoint b' f' s'))
  | .rationalNumber q' c' =>
      if isCompareOp op then
        match mobileType (.rationalNumber q c), mobileType (.rationalNumber q' c') with
        | some tm, some om => binaryOperatorResultDispatch op tm om
        | _, _ => .noRes
      else
        match evaluateBinaryOperator op q q' with
        | some value =>
            -- verify that numerator and denominator fit into 4096 bit after
            -- every operation (line 1162)
            if value.num ≠ 0 ∧ max (msbN value.num.natAbs) (msbN value.den) > 4096 then
              .err ("Precision of rational constants is limited to 4096 bits.")
            else .ok (.rationalNumber value none)
        | none => .noRes
  | _ => .noRes

/-- Modelled from the spec: the `canBeStored()` predicate (Types.h overrides,
not under src/) — §4.3: "Fields that cannot be stored (certain reference-only
types) are skipped entirely".  Every category of the modelled fragment used
as a struct field is storable. -/
def canBeStored : Ty → Bool := fun _ => true

/-- Modelled from the spec: the `storageBytes()` overrides (Types.h, not
under src/) — §3: a slot is 32 bytes and no scalar field exceeds it; an
`n`-bit integer or fixed-point value occupies `n/8` bytes, `bytesN` occupies
`n` bytes, `bool` one byte; the remaining categories use the `Type` default
of a full 32-byte slot. -/
def storageBytes : Ty → ℕ
  | .integer b _ => b / 8
  | .fixedPoint b _ _ => b / 8
  | .fixedBytes n => n
  | .boolean => 1
  | _ => 32

/-- The `storageSize()` query in 32-byte slots: `ArrayType::storageSize`
(lines 1777–1795) is translated from the source; every other modelled
category uses the `Type` default of one slot (Types.h, noted in the spec
§4.1). -/
def storageSize : Ty → ℕ
  | .array _ base d l _ =>
      if d then 1
      else
        let baseBytes := storageBytes base
        let size :=
          if baseBytes = 0 then 1
          else if baseBytes < 32 then (l + (32 / baseBytes - 1)) / (32 / baseBytes)
          else l * storageSize base
        max 1 size
  | _ => 1

/-- The loop body of `StorageOffsets::computeOffsets` (lines 158–190):
thread `(slotOffset, byteOffset)` through the field list, recording for each
storable field its `(slot, byteOffset)` pair and `none` for skipped fields,
and finish by rounding a partially used last slot up into the total slot
count.  The two `solAssert` guards (`slotOffset < 2^256`) are internal
invariant checks and are not part of the computed result. -/
def computeOffsetsAux : List Ty → ℕ → ℕ → List (Option (ℕ × ℕ)) × ℕ
  | [], slotOffset, byteOffset =>
      ([], if byteOffset > 0 then slotOffset + 1 else slotOffset)
  | t :: rest, slotOffset, byteOffset =>
      if !canBeStored t then
        let (offsets, total) := computeOffsetsAux rest slotOffset byteOffset
        (none :: offsets, total)
      else
        -- if it would overflow the current slot, go to the next one
        let slotOffset := if byteOffset + storageBytes t > 32 then slotOffset + 1 else slotOffset
        let byteOffset := if byteOffset + storageBytes t > 32 then 0 else byteOffset
        let here := (slotOffset, byteOffset)
        let packs := storageSize t = 1 ∧ byteOffset + storageBytes t ≤ 32
        let slotOffset' := if packs then slotOffset else slotOffset + storageSize t
        let byteOffset' := if packs then byteOffset + storageBytes t else 0
        let (offsets, total) := computeOffsetsAux rest slotOffset' byteOffset'
        (some here :: offsets, total)

/-- `StorageOffsets::computeOffsets` on an ordered field-type list: the per-
index `(slot, byteOffset)` map together with the total storage size in
slots. -/
def computeOffsets (types : List Ty) : List (Option (ℕ × ℕ)) × ℕ :=
  computeOffsetsAux types 0 0

/-- `boost::algorithm::replace_all` for a single-character pattern: every
occurrence of `p` is replaced by `rep`; the scan never revisits replaced
text, which for a one-character pattern is exactly a character-wise
expansion.  Strings are modelled as `List Char`. -/
def replaceAllChar (p : Char) (rep : List Char) : List Char → List Char
  | [] => []
  | ch :: rest => (if ch = p then rep else [ch]) ++ replaceAllChar p rep rest

/-- `Type::escapeIdentifier` (lines 279–288): substitute `$` by `$$$`, then
`,` by `_$_`, then `(` by `$_`, then `)` by `_$`, in this order. -/
def escapeIdentifier (s : List Char) : List Char :=
  replaceAllChar ')' ['_', '$']
    (replaceAllChar '(' ['$', '_']
      (replaceAllChar ',' ['_', '$', '_']
        (replaceAllChar '$' ['$', '$', '$'] s)))

/-- Characters a rich identifier may contain before escaping
(`[A-Za-z0-9_$(),]`). -/
def isRichIdentChar (ch : Char) : Bool :=
  ch.isAlphanum || ch = '_' || ch = '$' || ch = '(' || ch = ')' || ch = ','

/-- Characters allowed in an escaped identifier (`[A-Za-z0-9_$]`), the
alphabet `Type::identifier` asserts (lines 293–297). -/
def isEscapedIdentChar (ch : Char) : Bool :=
  ch.isAlphanum || ch = '_' || ch = '$'

/-! Helper lemmas about the embedded definitions. -/

/-- Zero has no binary digits, for any fuel. -/
theorem numberBitsAux_zero : ∀ fuel acc : ℕ, numberBitsAux fuel 0 acc = acc
  | 0, _ => rfl
  | _ + 1, _ => by simp [numberBitsAux]

/-- On a power of two with enough fuel, the helper counts `k + 1` binary
digits. -/
theorem numberBitsAux_two_pow :
    ∀ k fuel acc : ℕ, k < fuel → numberBitsAux fuel (2 ^ k) acc = acc + k + 1 := by
  intro k
  induction k with
  | zero =>
      intro fuel acc h
      match fuel, h with
      | fuel' + 1, _ => simp [numberBitsAux, numberBitsAux_zero]
  | succ k ih =>
      intro fuel acc h
      match fuel, h with
      | fuel' + 1, h =>
        have hne : 2 ^ (k + 1) ≠ 0 := pow_ne_zero _ two_ne_zero
        have hdiv : 2 ^ (k + 1) / 2 = 2 ^ k := by
          rw [pow_succ, Nat.mul_div_cancel _ (by omega)]
        have hk : k < fuel' := by omega
        simp only [numberBitsAux, if_neg hne, hdiv, ih fuel' (acc + 1) hk]
        omega

/-- `numberBits` of a power of two. -/
theorem numberBits_two_pow (k : ℕ) : numberBits (2 ^ k) = k + 1 := by
  have hk : k < 2 ^ k + 1 := by
    have := Nat.lt_two_pow k
    omega
  simpa [numberBits] using numberBitsAux_two_pow k (2 ^ k + 1) 0 hk

/-- The embedded `msb` of a power of two is its exponent, exactly as for
`boost::multiprecision::msb`. -/
theorem msbN_two_pow (k : ℕ) : msbN (2 ^ k) = k := by
  simp [msbN, numberBits_two_pow]

/-- Structural equality is reflexive in every category. -/
theorem tyEq_refl : ∀ t : Ty, tyEq t t = true
  | .integer _ _ => by simp [tyEq]
  | .fixedPoint _ _ _ => by simp [tyEq]
  | .rationalNumber _ _ => by simp [tyEq]
  | .fixedBytes _ => by simp [tyEq]
  | .boolean => rfl
  | .address => rfl
  | .array _ b _ _ _ => by simp [tyEq, tyEq_refl b]
  | .optional v => by simpa [tyEq] using tyEq_refl v
  | .mapping k v => by simp [tyEq, tyEq_refl k, tyEq_refl v]
  | .nullType => rfl
  | .emptyMap => rfl

/-- Unwrapping a pair of equal types yields a pair of equal types. -/
theorem unwrapArrayPair_same : ∀ t : Ty, (unwrapArrayPair t t).2 = (unwrapArrayPair t t).1
  | .array _ b _ _ _ => by simpa [unwrapArrayPair] using unwrapArrayPair_same b
  | .integer _ _ => rfl
  | .fixedPoint _ _ _ => rfl
  | .rationalNumber _ _ => rfl
  | .fixedBytes _ => rfl
  | .boolean => rfl
  | .address => rfl
  | .optional _ => rfl
  | .mapping _ _ => rfl
  | .nullType => rfl
  | .emptyMap => rfl

/-- Every character of a single-character `replace_all` image either comes
from the replacement string or is an untouched original character different
from the pattern. -/
theorem replaceAllChar_chars {P : Char → Prop} (p : Char) (rep : List Char)
    (hrep : ∀ c ∈ rep, P c) :
    ∀ s : List Char, (∀ c ∈ s, c ≠ p → P c) → ∀ c ∈ replaceAllChar p rep s, P c := by
  intro s
  induction s with
  | nil => intro _ c hc; simp [replaceAllChar] at hc
  | cons ch rest ih =>
      intro hs c hc
      simp only [replaceAllChar, List.mem_append] at hc
      rcases hc with hc | hc
      · by_cases hch : ch = p
        · exact hrep c (by simpa [hch] using hc)
        · have : c = ch := by simpa [hch] using hc
          exact this ▸ hs ch (by simp) hch
      · exact ih (fun d hd hdp => hs d (by simp [hd]) hdp) c hc

/-! Unfolding equations for the conversion dispatch, one per match arm used
by the theorems below (stated explicitly because the generated equations of
the full dispatch are costly to use). -/

/-- Unfolding of the Integer → Integer conversion arm. -/
theorem conv_int_int (b : ℕ) (s : Bool) (b' : ℕ) (s' : Bool) :
    isImplicitlyConvertibleTo (.integer b s) (.integer b' s') =
      (if tyEq (.integer b s) (.integer b' s') then .yes
       else if s != s' then .no
       else if b' < b then .no
       else .yes) := rfl

/-- Unfolding of the FixedPoint → FixedPoint conversion arm. -/
theorem conv_fp_fp (b f : ℕ) (s : Bool) (b' f' : ℕ) (s' : Bool) :
    isImplicitlyConvertibleTo (.fixedPoint b f s) (.fixedPoint b' f' s') =
      (if tyEq (.fixedPoint b f s) (.fixedPoint b' f' s') then .yes
       else if f' < f then .mkErr ("Too many fractional digits.")
       else if b' < b then .no
       else .ofBool (decide (fpMaxIntegerValue b' f' s' ≥ fpMaxIntegerValue b f s ∧
         fpMinIntegerValue b' f' s' ≤ fpMinIntegerValue b f s))) := rfl

/-- Unfolding of the RationalNumber → RationalNumber conversion arm. -/
theorem conv_rat_rat (q : ℚ) (c : Option ℕ) (q' : ℚ) (c' : Option ℕ) :
    isImplicitlyConvertibleTo (.rationalNumber q c) (.rationalNumber q' c') =
      (if tyEq (.rationalNumber q c) (.rationalNumber q' c') then .yes else .no) := rfl

/-- Unfolding of the RationalNumber → FixedBytes conversion arm. -/
theorem conv_rat_bytes (q : ℚ) (c : Option ℕ) (n : ℕ) :
    isImplicitlyConvertibleTo (.rationalNumber q c) (.fixedBytes n) =
      .ofBool (decide (q = 0) ||
        (match c with
         | some m => tyEq (.fixedBytes m) (.fixedBytes n)
         | none => false)) := rfl

/-- Unfolding of the FixedBytes → FixedBytes conversion arm. -/
theorem conv_bytes_bytes (n n' : ℕ) :
    isImplicitlyConvertibleTo (.fixedBytes n) (.fixedBytes n') =
      (if tyEq (.fixedBytes n) (.fixedBytes n') then .yes
       else .ofBool (n' ≥ n)) := rfl

/-- Unfolding of the Array → Array conversion arm. -/
theorem conv_arr_arr (k : ArrKind) (b : Ty) (d : Bool) (l : ℕ) (p : Bool)
    (k' : ArrKind) (b' : Ty) (d' : Bool) (l' : ℕ) (p' : Bool) :
    isImplicitlyConvertibleTo (.array k b d l p) (.array k' b' d' l' p') =
      (if tyEq (.array k b d l p) (.array k' b' d' l' p') then .yes
       else if isByteArrayOrStringK k && isByteArrayOrStringK k' then .yes
       else if xor (isByteArrayK k) (isByteArrayK k') then .no
       else .ofBool (tyEq (unwrapArrayPair b b').1 (unwrapArrayPair b b').2)) := rfl

/-- Unfolding of the Optional → Optional conversion arm. -/
theorem conv_opt_opt (tv v : Ty) :
    isImplicitlyConvertibleTo (.optional tv) (.optional v) =
      (if tyEq (.optional tv) (.optional v) then .yes
       else if (isImplicitlyConvertibleTo (.optional tv) v).val then .yes
       else if (isImplicitlyConvertibleTo tv v).val then .yes
       else .no) := rfl

/-- Unfolding of the Mapping → Mapping conversion arm. -/
theorem conv_map_map (k v k' v' : Ty) :
    isImplicitlyConvertibleTo (.mapping k v) (.mapping k' v') =
      (if tyEq (.mapping k v) (.mapping k' v') then .yes
       else .ofBool (tyEq k k' && tyEq v v')) := rfl

/-- A rich-identifier character that is none of the three punctuation
characters replaced by `escapeIdentifier` lies in the escaped alphabet
(the `$` substitutions keep `$`). -/
theorem richChar_escaped {c : Char} (h : isRichIdentChar c = true)
    (h1 : c ≠ ',') (h2 : c ≠ '(') (h3 : c ≠ ')') : isEscapedIdentChar c = true := by
  simp only [isRichIdentChar, Bool.or_eq_true, decide_eq_true_eq] at h
  simp only [isEscapedIdentChar, Bool.or_eq_true, decide_eq_true_eq]
  rcases h with ((((h | h) | h) | h) | h) | h
  · exact Or.inl (Or.inl h)
  · exact Or.inl (Or.inr h)
  · exact Or.inr h
  · exact absurd h h2
  · exact absurd h h3
  · exact absurd h h1

/-! Claim theorems. -/

/-- C1, counterexample: the claim "`T[]` is not implicitly convertible to
`T[n]`" fails on the code at `T = uint256`, `n = 3`:
`ArrayType::isImplicitlyConvertibleTo` compares only the recursively
unwrapped base types and accepts the dynamically-sized array as a source for
the fixed-size one. -/
theorem c1_dynamic_to_fixed_counterexample :
    (isImplicitlyConvertibleTo
      (Ty.array .ordinary (Ty.integer 256 false) true 0 false)
      (Ty.array .ordinary (Ty.integer 256 false) false 3 false)).val = true := by
  decide

/-- C1, amended: for every element type `T` and length `n`, the fixed-size
array `T[n]` is implicitly convertible to the dynamically-sized `T[]` — and
also vice versa: the conversion rule ignores lengths and the dynamic-size
flag, requiring only equal recursively-unwrapped element types and matching
byte-array kind. -/
theorem c1_array_conversion_ignores_length (t : Ty) (n : ℕ) :
    (isImplicitlyConvertibleTo
      (Ty.array .ordinary t false n false)
      (Ty.array .ordinary t true 0 false)).val = true ∧
    (isImplicitlyConvertibleTo
      (Ty.array .ordinary t true 0 false)
      (Ty.array .ordinary t false n false)).val = true := by
  have hu := unwrapArrayPair_same t
  constructor <;>
  · rw [conv_arr_arr]
    simp [tyEq, isByteArrayK, isStringK, isByteArrayOrStringK, BRes.ofBool, hu, tyEq_refl]

/-- C2: the storage layout engine packs `[uint8, uint8, uint256, bool]` at
`(0,0), (0,1), (1,0), (2,0)` in 3 slots, and `[uint256, uint256]` at
`(0,0), (1,0)` in 2 slots. -/
theorem c2_storage_layout :
    computeOffsets [Ty.integer 8 false, Ty.integer 8 false, Ty.integer 256 false, Ty.boolean] =
      ([some (0, 0), some (0, 1), some (1, 0), some (2, 0)], 3) ∧
    computeOffsets [Ty.integer 256 false, Ty.integer 256 false] =
      ([some (0, 0), some (1, 0)], 2) := by
  decide

/-- C5, counterexample: the identity conversion fails for the constructible
type `NullType`, whose rule accepts Optional targets only
(`NullType::isImplicitlyConvertibleTo` has no identity case). -/
theorem c5_null_identity_counterexample :
    (isImplicitlyConvertibleTo Ty.nullType Ty.nullType).val = false := by
  decide

/-- C5, amended: for every constructible type of the modelled taxonomy other
than `NullType` and `EmptyMapType` (whose rules accept only Optional and
Mapping targets respectively, and so reject themselves),
`T.isImplicitlyConvertibleTo(T)` is true. -/
theorem c5_identity_conversion (t : Ty)
    (hn : t ≠ Ty.nullType) (he : t ≠ Ty.emptyMap) :
    (isImplicitlyConvertibleTo t t).val = true := by
  cases t with
  | integer b s => rw [conv_int_int]; simp [tyEq_refl, BRes.yes]
  | fixedPoint b f s => rw [conv_fp_fp]; simp [tyEq_refl, BRes.yes]
  | rationalNumber q c => rw [conv_rat_rat]; simp [tyEq_refl, BRes.yes]
  | fixedBytes n => rw [conv_bytes_bytes]; simp [tyEq_refl, BRes.yes]
  | boolean => decide
  | address => decide
  | array k b d l p => rw [conv_arr_arr]; simp [tyEq_refl, BRes.yes]
  | optional v => rw [conv_opt_opt]; simp [tyEq_refl, BRes.yes]
  | mapping k v => rw [conv_map_map]; simp [tyEq_refl, BRes.yes]
  | nullType => exact absurd rfl hn
  | emptyMap => exact absurd rfl he

/-- C5, witness for the amended identity theorem at `bool`. -/
theorem c5_identity_conversion_witness :
    (isImplicitlyConvertibleTo Ty.boolean Ty.boolean).val = true :=
  c5_identity_conversion Ty.boolean (by decide) (by decide)

/-- C6: the literal `255` gets `integerType()` `uint8`, `256` gets `uint16`,
`-128` gets `int8`, and the fractional literal `3/2` (= 1.5) gets
`fixedPointType()` `ufixed8x1`: one fractional digit and the smallest byte
width whose value range holds the scaled value 15. -/
theorem c6_literal_type_inference :
    integerType (mkRat 255 1) = some (Ty.integer 8 false) ∧
    integerType (mkRat 256 1) = some (Ty.integer 16 false) ∧
    integerType (mkRat (-128) 1) = some (Ty.integer 8 true) ∧
    fixedPointType (mkRat 3 2) = some (Ty.fixedPoint 8 1 false) := by
  decide

/-- C7, counterexample: `escapeIdentifier` is not injective on
rich-identifier strings: the distinct inputs `,(` and `)_(` both escape to
`_$_$_`, so no unescaping function can recover the original. -/
theorem c7_escape_collision :
    escapeIdentifier [',', '('] = escapeIdentifier [')', '_', '('] ∧
    ([',', '('] : List Char) ≠ [')', '_', '('] := by
  decide

/-- C7, amended: over the rich-identifier alphabet `[A-Za-z0-9_$(),]` the
output of `escapeIdentifier` contains only characters in `[A-Za-z0-9_$]`;
injectivity, however, does not hold (see the collision counterexample). -/
theorem c7_escape_output_alphabet (s : List Char)
    (hs : ∀ c ∈ s, isRichIdentChar c = true) :
    ∀ c ∈ escapeIdentifier s, isEscapedIdentChar c = true := by
  have h1 : ∀ c ∈ replaceAllChar '$' ['$', '$', '$'] s, isRichIdentChar c = true :=
    replaceAllChar_chars _ _ (by decide) s (fun c hc _ => hs c hc)
  have h2 : ∀ c ∈ replaceAllChar ',' ['_', '$', '_'] (replaceAllChar '$' ['$', '$', '$'] s),
      isRichIdentChar c = true ∧ c ≠ ',' :=
    replaceAllChar_chars _ _ (by decide) _ (fun c hc hne => ⟨h1 c hc, hne⟩)
  have h3 : ∀ c ∈ replaceAllChar '(' ['$', '_']
      (replaceAllChar ',' ['_', '$', '_'] (replaceAllChar '$' ['$', '$', '$'] s)),
      (isRichIdentChar c = true ∧ c ≠ ',') ∧ c ≠ '(' :=
    replaceAllChar_chars _ _ (by decide) _ (fun c hc hne => ⟨h2 c hc, hne⟩)
  have h4 : ∀ c ∈ escapeIdentifier s, ((isRichIdentChar c = true ∧ c ≠ ',') ∧ c ≠ '(') ∧ c ≠ ')' :=
    replaceAllChar_chars _ _ (by decide) _ (fun c hc hne => ⟨h3 c hc, hne⟩)
  intro c hc
  exact richChar_escaped (h4 c hc).1.1.1 (h4 c hc).1.1.2 (h4 c hc).1.2 (h4 c hc).2

/-- C7, witness for the amended alphabet theorem on a concrete rich
identifier with every reserved character present. -/
theorem c7_escape_output_alphabet_witness :
    (escapeIdentifier ['t', '_', 'a', '(', 't', '2', '5', '6', ',', ')', '$']).all
      isEscapedIdentChar = true := by
  rw [List.all_eq_true]
  exact c7_escape_output_alphabet _ (by decide)

/-- C3, counterexample: `commonType` is not symmetric on the code: `bytes`
and `string` are mutually implicitly convertible but structurally unequal,
and each argument order returns its own first argument (its mobile type). -/
theorem c3_commonType_asymmetry_counterexample :
    commonType (Ty.array .bytesKind (Ty.fixedBytes 1) true 0 false)
        (Ty.array .stringKind (Ty.fixedBytes 1) true 0 false) =
      some (Ty.array .bytesKind (Ty.fixedBytes 1) true 0 false) ∧
    commonType (Ty.array .stringKind (Ty.fixedBytes 1) true 0 false)
        (Ty.array .bytesKind (Ty.fixedBytes 1) true 0 false) =
      some (Ty.array .stringKind (Ty.fixedBytes 1) true 0 false) ∧
    Ty.array .bytesKind (Ty.fixedBytes 1) true 0 false ≠
      Ty.array .stringKind (Ty.fixedBytes 1) true 0 false := by
  decide

/-- C3, amended: `commonType(A, B)` is non-null exactly when
`commonType(B, A)` is, and the two orders agree except when `A` and `B` have
distinct mobile types that are mutually implicitly convertible (such as
`bytes` and `string`), in which case each order returns its own first
argument's mobile type. -/
theorem c3_commonType_symmetry (a b : Ty) :
    ((commonType a b).isSome = (commonType b a).isSome) ∧
    (commonType a b = commonType b a ∨
      ∃ ma mb, mobileType a = some ma ∧ mobileType b = some mb ∧
        (isImplicitlyConvertibleTo b ma).val = true ∧
        (isImplicitlyConvertibleTo a mb).val = true ∧
        ma ≠ mb ∧ commonType a b = some ma ∧ commonType b a = some mb) := by
  rcases hma : mobileType a with _ | ma <;> rcases hmb : mobileType b with _ | mb
  · simp [commonType, hma, hmb]
  · cases hc : (isImplicitlyConvertibleTo a mb).val <;> simp [commonType, hma, hmb, hc]
  · cases hc : (isImplicitlyConvertibleTo b ma).val <;> simp [commonType, hma, hmb, hc]
  · cases hc1 : (isImplicitlyConvertibleTo b ma).val <;>
      cases hc2 : (isImplicitlyConvertibleTo a mb).val <;>
      simp [commonType, hma, hmb, hc1, hc2]
    tauto

/-- Unfolding of `RationalNumberType::binaryOperatorResult` for a
RationalNumber right operand (lines 1144–1169). -/
theorem ratBin_rat_arm (op : Op) (q : ℚ) (c : Option ℕ) (q' : ℚ) (c' : Option ℕ) :
    rationalBinaryOperatorResult op q c (.rationalNumber q' c') =
      (if isCompareOp op then
        match mobileType (.rationalNumber q c), mobileType (.rationalNumber q' c') with
        | some tm, some om => binaryOperatorResultDispatch op tm om
        | _, _ => .noRes
      else
        match evaluateBinaryOperator op q q' with
        | some value =>
            if value.num ≠ 0 ∧ max (msbN value.num.natAbs) (msbN value.den) > 4096 then
              .err ("Precision of rational constants is limited to 4096 bits.")
            else .ok (.rationalNumber value none)
        | none => .noRes) := rfl

/-- C4, evaluation at the failing input: multiplying the rational literals
`2^2048` and `2^2048` produces the exact value `2^4096`, whose numerator
needs 4097 binary digits — more than the advertised 4096-bit budget — yet
`binaryOperatorResult` returns the rational constant type and not the
"Precision of rational constants is limited to 4096 bits." error, because
the guard compares the zero-based `msb` index (4096) with `> 4096`. -/
theorem c4_precision_guard_off_by_one :
    rationalBinaryOperatorResult .mul (mkRat ((2 ^ 2048 : ℕ) : ℤ) 1) none
      (.rationalNumber (mkRat ((2 ^ 2048 : ℕ) : ℤ) 1) none) =
      .ok (.rationalNumber (mkRat ((2 ^ 4096 : ℕ) : ℤ) 1) none) ∧
    numberBits (2 ^ 4096) = 4097 := by
  constructor
  · have hmul : qmul (mkRat ((2 ^ 2048 : ℕ) : ℤ) 1) (mkRat ((2 ^ 2048 : ℕ) : ℤ) 1) =
        mkRat ((2 ^ 4096 : ℕ) : ℤ) 1 := by
      unfold qmul
      rw [Rat.mkRat_one, Rat.num_intCast, Rat.den_intCast]
      norm_num
    have h1 : (mkRat ((2 ^ 4096 : ℕ) : ℤ) 1).num = ((2 ^ 4096 : ℕ) : ℤ) := by
      rw [Rat.mkRat_one]; exact Rat.num_intCast _
    have h2 : (mkRat ((2 ^ 4096 : ℕ) : ℤ) 1).den = 1 := by
      rw [Rat.mkRat_one]; exact Rat.den_intCast _
    have hmsb1 : msbN ((2 ^ 4096 : ℕ) : ℤ).natAbs = 4096 := by
      rw [Int.natAbs_ofNat]; exact msbN_two_pow 4096
    have hmsb2 : msbN 1 = 0 := by decide
    have hcond : ¬((mkRat ((2 ^ 4096 : ℕ) : ℤ) 1).num ≠ 0 ∧
        max (msbN (mkRat ((2 ^ 4096 : ℕ) : ℤ) 1).num.natAbs)
          (msbN (mkRat ((2 ^ 4096 : ℕ) : ℤ) 1).den) > 4096) := by
      rw [h1, h2, hmsb1, hmsb2]
      intro h
      exact absurd h.2 (by decide)
    rw [ratBin_rat_arm, if_neg (by decide : ¬(isCompareOp Op.mul = true))]
    rw [show evaluateBinaryOperator Op.mul (mkRat ((2 ^ 2048 : ℕ) : ℤ) 1)
        (mkRat ((2 ^ 2048 : ℕ) : ℤ) 1) =
      some (qmul (mkRat ((2 ^ 2048 : ℕ) : ℤ) 1) (mkRat ((2 ^ 2048 : ℕ) : ℤ) 1)) from rfl, hmul]
    show (if (mkRat ((2 ^ 4096 : ℕ) : ℤ) 1).num ≠ 0 ∧
        max (msbN (mkRat ((2 ^ 4096 : ℕ) : ℤ) 1).num.natAbs)
          (msbN (mkRat ((2 ^ 4096 : ℕ) : ℤ) 1).den) > 4096 then
        TRes.err ("Precision of rational constants is limited to 4096 bits.")
      else TRes.ok (.rationalNumber (mkRat ((2 ^ 4096 : ℕ) : ℤ) 1) none)) =
      TRes.ok (.rationalNumber (mkRat ((2 ^ 4096 : ℕ) : ℤ) 1) none)
    rw [if_neg hcond]
  · have := numberBits_two_pow 4096
    omega

/-- C8: exponentiation on an integer base reports a `TypeResult` error value
"Exponentiation power is not allowed to be a signed integer type." for a
signed-integer exponent type, and "Exponent is fractional." for a fractional
rational-literal exponent; both are ordinary result values of the embedded
`binaryOperatorResult`, never exceptions. -/
theorem c8_exponent_errors :
    (∀ (b : ℕ) (s : Bool) (eb : ℕ), integerBinaryOperatorResult .exp b s (.integer eb true) =
      .err ("Exponentiation power is not allowed to be a signed integer type.")) ∧
    (∀ (b : ℕ) (s : Bool) (q : ℚ) (c : Option ℕ), isFractional q = true →
      integerBinaryOperatorResult .exp b s (.rationalNumber q c) =
      .err ("Exponent is fractional.")) := by
  constructor
  · intro b s eb
    simp [integerBinaryOperatorResult, isIntCompatibleCategory, isShiftOp]
  · intro b s q c hq
    simp [integerBinaryOperatorResult, isIntCompatibleCategory, isShiftOp, hq]

/-- C8, witness: `uint8 ** int8` and `uint8 ** (3/2)` at concrete inputs. -/
theorem c8_exponent_errors_witness :
    integerBinaryOperatorResult .exp 8 false (.integer 8 true) =
      .err ("Exponentiation power is not allowed to be a signed integer type.") ∧
    integerBinaryOperatorResult .exp 8 false (.rationalNumber (mkRat 3 2) none) =
      .err ("Exponent is fractional.") :=
  ⟨c8_exponent_errors.1 8 false 8, c8_exponent_errors.2 8 false (mkRat 3 2) none (by decide)⟩

/-- C9: a rational literal converts implicitly to `bytesN` exactly when its
value is zero or it carries a compatible bytes type equal to the target; in
particular a nonzero literal with no compatible bytes type (every nonzero
decimal integer literal) never converts. -/
theorem c9_rational_to_fixedbytes (q : ℚ) (c : Option ℕ) (n : ℕ) :
    ((isImplicitlyConvertibleTo (.rationalNumber q c) (.fixedBytes n)).val = true ↔
      (q = 0 ∨ c = some n)) ∧
    (q ≠ 0 →
      (isImplicitlyConvertibleTo (.rationalNumber q none) (.fixedBytes n)).val = false) := by
  constructor
  · rw [conv_rat_bytes]
    cases c with
    | none => simp [BRes.ofBool]
    | some m => simp [BRes.ofBool, tyEq]
  · intro hq
    rw [conv_rat_bytes]
    simp [BRes.ofBool, hq]

/-- C9, witness: the nonzero decimal literal `5` does not convert to
`bytes4`. -/
theorem c9_rational_to_fixedbytes_witness :
    (isImplicitlyConvertibleTo (.rationalNumber (mkRat 5 1) none) (.fixedBytes 4)).val = false :=
  (c9_rational_to_fixedbytes (mkRat 5 1) none 4).2 (by decide)

/-- C10: fixed-point to fixed-point implicit conversion holds exactly when
the target has at least as many fractional digits, at least as many total
bits, and an integer value range containing the source's; when the target
has fewer fractional digits the failure carries the reason
"Too many fractional digits.". -/
theorem c10_fixedpoint_conversion (b f : ℕ) (s : Bool) (b' f' : ℕ) (s' : Bool) :
    ((isImplicitlyConvertibleTo (.fixedPoint b f s) (.fixedPoint b' f' s')).val = true ↔
      (f ≤ f' ∧ b ≤ b' ∧
        fpMaxIntegerValue b' f' s' ≥ fpMaxIntegerValue b f s ∧
        fpMinIntegerValue b' f' s' ≤ fpMinIntegerValue b f s)) ∧
    (f' < f →
      (isImplicitlyConvertibleTo (.fixedPoint b f s) (.fixedPoint b' f' s')).reason =
        some ("Too many fractional digits.")) := by
  rw [conv_fp_fp]
  constructor
  · split_ifs with h1 h2 h3
    · simp only [tyEq, Bool.and_eq_true, beq_iff_eq] at h1
      obtain ⟨⟨hb, hf⟩, hs⟩ := h1
      subst hb; subst hf; subst hs
      simp [BRes.yes]
    · simp only [BRes.mkErr]
      constructor
      · intro h; simp at h
      · intro h; omega
    · simp only [BRes.no]
      constructor
      · intro h; simp at h
      · intro h; omega
    · simp only [BRes.ofBool, decide_eq_true_eq]
      constructor
      · intro h; exact ⟨by omega, by omega, h.1, h.2⟩
      · intro h; exact ⟨h.2.2.1, h.2.2.2⟩
  · intro hf
    have hne : (f == f') = false := by
      simp [Nat.beq_eq_true_eq]; omega
    simp [tyEq, hne, hf, BRes.mkErr]

/-- C10, witness: `ufixed16x2` to `ufixed8x1` fails with the fractional-
digits reason. -/
theorem c10_fixedpoint_conversion_witness :
    (isImplicitlyConvertibleTo (.fixedPoint 16 2 false) (.fixedPoint 8 1 false)).reason =
      some ("Too many fractional digits.") :=
  (c10_fixedpoint_conversion 16 2 false 8 1 false).2 (by decide)
